import Mathlib

/- A verification development for esptool.py, the ESP8266 ROM bootloader
utility. The definitions below embed the functions of the Python source;
the theorems check the specification claims against them. Byte sequences
are List Nat with entries in [0, 255]; machine integers are Nat with
explicit range guards mirroring struct.pack, which raises on out-of-range
values. Python exceptions are modelled by Option / Except results. -/

namespace EspTool

/-- Opcode and size constants of class ESPROM in esptool.py. -/
def ESP_FLASH_BEGIN : Nat := 0x02

def ESP_FLASH_DATA : Nat := 0x03

def ESP_FLASH_END : Nat := 0x04

def ESP_MEM_BEGIN : Nat := 0x05

def ESP_MEM_END : Nat := 0x06

def ESP_MEM_DATA : Nat := 0x07

def ESP_SYNC : Nat := 0x08

/-- Maximum block size for RAM writes. -/
def ESP_RAM_BLOCK : Nat := 0x1800

/-- Maximum block size for Flash writes. -/
def ESP_FLASH_BLOCK : Nat := 0x400

/-- First byte of the application image. -/
def ESP_IMAGE_MAGIC : Nat := 0xe9

/-- Initial state for the checksum routine. -/
def ESP_CHECKSUM_MAGIC : Nat := 0xef

/-- Base address of the SPI mapping. -/
def ESP_FLASH_BASE : Nat := 0x40200000

/-- The kinds of Python exception the embedded code can raise. -/
inductive PyErr where
  | valueError
  | typeError
  | nameError
  | structError
  | timeoutError
  deriving DecidableEq

/-- Little-endian byte decomposition of a value below 2^32. -/
def u32le (n : Nat) : List Nat :=
  [n % 256, n / 256 % 256, n / 65536 % 256, n / 16777216 % 256]

/-- Packing a u32 field: struct.pack raises struct.error when the value
does not fit in 32 bits, modelled as none. -/
def packU32 (n : Nat) : Option (List Nat) :=
  if n < 4294967296 then some (u32le n) else none

/-- Packing a u16 field of the request header. -/
def packU16 (n : Nat) : Option (List Nat) :=
  if n < 65536 then some [n % 256, n / 256 % 256] else none

/-- Packing a single byte: bytes([v]) and struct.pack of a B field raise
when the value exceeds 255, modelled as none. -/
def packB (n : Nat) : Option (List Nat) :=
  if n ≤ 255 then some [n] else none

/-- Little-endian reading of a 4-byte list. -/
def decodeU32le : List Nat → Nat
  | [a, b, c, d] => a + 256 * b + 65536 * c + 16777216 * d
  | _ => 0

/-- The u32 field of a payload starting at byte offset i. -/
def getU32le (l : List Nat) (i : Nat) : Nat :=
  decodeU32le ((l.drop i).take 4)

/-- Replacement of every occurrence of a one-byte pattern by a byte list,
which is what bytes.replace performs for the single-byte patterns used in
ESPROM.write (a replacement is never rescanned). -/
def replaceByte (pat : Nat) (rep : List Nat) : List Nat → List Nat
  | [] => []
  | c :: cs => (if c = pat then rep else [c]) ++ replaceByte pat rep cs

/-- The escaping of ESPROM.write, exactly as the source composes it:
packet.replace(0xdb, 0xdb 0xdd).replace(0xc0, 0xdb 0xdc), i.e. the 0xDB
substitution first and the 0xC0 substitution second. -/
def slipEscape (packet : List Nat) : List Nat :=
  replaceByte 0xc0 [0xdb, 0xdc] (replaceByte 0xdb [0xdb, 0xdd] packet)

/-- ESPROM.write: the framed bytes put on the wire, a 0xC0 delimiter on
each side of the escaped payload. -/
def slipEncode (packet : List Nat) : List Nat :=
  0xc0 :: slipEscape packet ++ [0xc0]

/-- Byte-wise view of the escaping: what one payload byte contributes. -/
def escByte (c : Nat) : List Nat :=
  if c = 0xc0 then [0xdb, 0xdc] else if c = 0xdb then [0xdb, 0xdd] else [c]

/-- Byte-wise escaping of a whole payload. -/
def escapeAll : List Nat → List Nat
  | [] => []
  | c :: cs => escByte c ++ escapeAll cs

/-- Comparison definition following the words of the specification and of
claim C4: the 0xC0 substitution performed first, the 0xDB substitution
second. The source performs them in the opposite order. -/
def slipEscapeSpecOrder (packet : List Nat) : List Nat :=
  replaceByte 0xdb [0xdb, 0xdd] (replaceByte 0xc0 [0xdb, 0xdc] packet)

/-- Framing with the escaping order the claim asserts. -/
def slipEncodeSpecOrder (packet : List Nat) : List Nat :=
  0xc0 :: slipEscapeSpecOrder packet ++ [0xc0]

/-- ESPROM.read: reads the requested number of bytes off the raw stream
while SLIP unescaping (0xdb 0xdc to 0xc0, 0xdb 0xdd to 0xdb). Returns the
decoded bytes and the unconsumed stream; none models the ValueError raised
on a bad escape byte, or the port read failing for lack of input. -/
def slipDecode : Nat → List Nat → Option (List Nat × List Nat)
  | 0, s => some ([], s)
  | _ + 1, [] => none
  | n + 1, c :: s =>
    if c = 0xdb then
      match s with
      | [] => none
      | d :: s2 =>
        if d = 0xdc then (slipDecode n s2).map (fun p => (0xc0 :: p.1, p.2))
        else if d = 0xdd then (slipDecode n s2).map (fun p => (0xdb :: p.1, p.2))
        else none
    else (slipDecode n s).map (fun p => (c :: p.1, p.2))

/-- functools.reduce(operator.xor, data) with no initial value: the empty
sequence raises TypeError (none); otherwise the fold starts from the first
element. -/
def pyReduceXor : List Nat → Option Nat
  | [] => none
  | x :: xs => some (xs.foldl (fun a b => a ^^^ b) x)

/-- ESPROM.checksum(data, state): state XOR reduce(xor, data). -/
def checksum (data : List Nat) (state : Nat) : Option Nat :=
  (pyReduceXor data).map (fun r => state ^^^ r)

theorem replaceByte_append (pat : Nat) (rep xs ys : List Nat) :
    replaceByte pat rep (xs ++ ys) = replaceByte pat rep xs ++ replaceByte pat rep ys := by
  induction xs with
  | nil => rfl
  | cons c cs ih => simp [replaceByte, ih, List.append_assoc]

theorem slipEscape_eq_escapeAll (l : List Nat) : slipEscape l = escapeAll l := by
  induction l with
  | nil => rfl
  | cons c cs ih =>
    show replaceByte 0xc0 [0xdb, 0xdc]
        ((if c = 0xdb then [0xdb, 0xdd] else [c]) ++ replaceByte 0xdb [0xdb, 0xdd] cs)
      = escByte c ++ escapeAll cs
    rw [replaceByte_append]
    by_cases h1 : c = 0xdb
    · subst h1
      simp [replaceByte, escByte, escapeAll, slipEscape] at ih ⊢
      exact ih
    · by_cases h2 : c = 0xc0
      · subst h2
        simp [replaceByte, escByte, escapeAll, slipEscape] at ih ⊢
        exact ih
      · simp [replaceByte, escByte, escapeAll, slipEscape, h1, h2] at ih ⊢
        exact ih

theorem slipDecode_escapeAll (b : List Nat) :
    ∀ rest, slipDecode b.length (escapeAll b ++ rest) = some (b, rest) := by
  induction b with
  | nil => intro rest; rfl
  | cons c cs ih =>
    intro rest
    by_cases h1 : c = 0xc0
    · subst h1
      show slipDecode (cs.length + 1) ((escByte 0xc0 ++ escapeAll cs) ++ rest) = _
      simp only [escByte, if_pos rfl, List.cons_append, List.nil_append, List.append_assoc]
      simp [slipDecode, ih rest]
    · by_cases h2 : c = 0xdb
      · subst h2
        show slipDecode (cs.length + 1) ((escByte 0xdb ++ escapeAll cs) ++ rest) = _
        rw [show escByte 0xdb = [0xdb, 0xdd] from rfl]
        simp only [List.cons_append, List.nil_append]
        simp [slipDecode, ih rest]
      · show slipDecode (cs.length + 1) ((escByte c ++ escapeAll cs) ++ rest) = _
        rw [show escByte c = [c] from by simp [escByte, h1, h2]]
        simp only [List.cons_append, List.nil_append]
        simp [slipDecode, h2, ih rest]

/-- Claim C3: for every byte sequence b, the framed encoding of b starts
with the 0xC0 delimiter, and SLIP-unescaping exactly b.length bytes of
what follows yields b back with only the closing 0xC0 delimiter left. -/
theorem slip_roundtrip (b : List Nat) :
    (slipEncode b).head? = some 0xc0 ∧
    slipDecode b.length ((slipEncode b).tail) = some (b, [0xc0]) := by
  refine ⟨rfl, ?_⟩
  show slipDecode b.length (slipEscape b ++ [0xc0]) = some (b, [0xc0])
  rw [slipEscape_eq_escapeAll]
  exact slipDecode_escapeAll b [0xc0]

/-- Claim C4, counterexample: on the payload [0xc0] the encoding the
source produces differs from the encoding obtained by performing the 0xC0
substitution first and the 0xDB substitution second, as the claim states;
the source substitutes 0xDB first. -/
theorem slip_encode_order_cex :
    slipEncode [0xc0] ≠ slipEncodeSpecOrder [0xc0] := by decide

/-- Claim C4, amended: encode wraps the payload in one 0xC0 delimiter on
each side and escapes the payload only (never the delimiters), replacing
every literal 0xC0 by 0xDB 0xDC and every literal 0xDB by 0xDB 0xDD, the
0xDB substitution being performed first and the 0xC0 substitution second,
which acts on each payload byte independently. -/
theorem slip_encode_escaping (packet : List Nat) :
    slipEncode packet = 0xc0 :: escapeAll packet ++ [0xc0] := by
  show 0xc0 :: slipEscape packet ++ [0xc0] = _
  rw [slipEscape_eq_escapeAll]

/-- Claim C5: checksum applied to the empty byte sequence does not return
the seed: functools.reduce has no initial value there, so the call raises
TypeError (modelled as none) for every seed. -/
theorem checksum_empty_typeerror (seed : Nat) : checksum [] seed = none := rfl

/-- Sequential struct.pack of four u32 fields, little-endian. -/
def pack4U32 (a b c d : Nat) : Option (List Nat) := do
  let pa ← packU32 a
  let pb ← packU32 b
  let pc ← packU32 c
  let pd ← packU32 d
  pure (pa ++ pb ++ pc ++ pd)

/-- ESPROM.mem_begin payload: struct.pack of size, blocks, blocksize,
offset. The block size field is whatever the caller passes. -/
def memBeginPayload (size blocks blocksize offset : Nat) : Option (List Nat) :=
  pack4U32 size blocks blocksize offset

/-- ESPROM.flash_begin payload: struct.pack of size, 0x200, 0x400, offset.
The block size field is the literal 0x400. -/
def flashBeginPayload (size offset : Nat) : Option (List Nat) :=
  pack4U32 size 0x200 0x400 offset

/-- ESPROM.mem_finish payload: run flag int(entrypoint == 0), then the
entrypoint. -/
def memFinishPayload (entrypoint : Nat) : Option (List Nat) := do
  let a ← packU32 (if entrypoint = 0 then 1 else 0)
  let b ← packU32 entrypoint
  pure (a ++ b)

theorem packU32_of_lt {n : Nat} (h : n < 4294967296) : packU32 n = some (u32le n) := by
  simp [packU32, h]

theorem decodeU32le_u32le {n : Nat} (h : n < 4294967296) : decodeU32le (u32le n) = n := by
  show n % 256 + 256 * (n / 256 % 256) + 65536 * (n / 65536 % 256)
      + 16777216 * (n / 16777216 % 256) = n
  omega

theorem pack4U32_of_lt {a b c d : Nat} (ha : a < 4294967296) (hb : b < 4294967296)
    (hc : c < 4294967296) (hd : d < 4294967296) :
    pack4U32 a b c d = some (u32le a ++ u32le b ++ u32le c ++ u32le d) := by
  simp [pack4U32, packU32_of_lt, ha, hb, hc, hd]

theorem getU32le_field2 (a b c d : Nat) (hc : c < 4294967296) :
    getU32le (u32le a ++ u32le b ++ u32le c ++ u32le d) 8 = c := by
  show decodeU32le (u32le c) = c
  exact decodeU32le_u32le hc

/-- Claim C2, counterexample: the RAM download-begin payload built with the
block size write_memory_image passes (ESP_RAM_BLOCK) does not carry 0x400
in its block size field (bytes 8 to 11); it carries 0x1800. -/
theorem mem_begin_blocksize_cex :
    (memBeginPayload 8 1 ESP_RAM_BLOCK 0x40100000).map (fun p => getU32le p 8)
      ≠ some 0x400 := by decide

/-- Claim C2, amended: a flash download-begin always declares block size
0x400, a fixed constant the caller cannot change; a RAM download-begin
declares whatever block size its caller passes, and write_memory_image
passes ESP_RAM_BLOCK = 0x1800. -/
theorem begin_blocksize (size blocks blocksize offset : Nat)
    (hs : size < 4294967296) (hb : blocks < 4294967296)
    (hbs : blocksize < 4294967296) (ho : offset < 4294967296) :
    (flashBeginPayload size offset).map (fun p => getU32le p 8) = some 0x400 ∧
    (memBeginPayload size blocks blocksize offset).map (fun p => getU32le p 8)
      = some blocksize := by
  constructor
  · show (pack4U32 size 0x200 0x400 offset).map (fun p => getU32le p 8) = some 0x400
    rw [pack4U32_of_lt hs (by norm_num) (by norm_num) ho]
    show some (getU32le (u32le size ++ u32le 0x200 ++ u32le 0x400 ++ u32le offset) 8)
      = some 0x400
    rw [getU32le_field2 size 0x200 0x400 offset (by norm_num)]
  · show (pack4U32 size blocks blocksize offset).map (fun p => getU32le p 8) = some blocksize
    rw [pack4U32_of_lt hs hb hbs ho]
    show some (getU32le (u32le size ++ u32le blocks ++ u32le blocksize ++ u32le offset) 8)
      = some blocksize
    rw [getU32le_field2 size blocks blocksize offset hbs]

/-- Witness for begin_blocksize at the arguments write_memory_image uses
for a one-byte section at 0x40100000. -/
theorem begin_blocksize_witness :
    (flashBeginPayload 8 0x40100000).map (fun p => getU32le p 8) = some 0x400 ∧
    (memBeginPayload 8 1 ESP_RAM_BLOCK 0x40100000).map (fun p => getU32le p 8)
      = some ESP_RAM_BLOCK :=
  begin_blocksize 8 1 ESP_RAM_BLOCK 0x40100000 (by decide) (by decide) (by decide) (by decide)

/-- The Image class of esptool.py: sections split into bootloader-loaded
and flash-mapped lists, an entrypoint and the flash base address. -/
structure Image where
  loaded_sections : List (Nat × List Nat)
  static_sections : List (Nat × List Nat)
  entrypoint : Nat
  flash_base : Nat

/-- Image.add_section: an address below flash_base goes to the loaded
list, anything else to the static list, appended in input order. -/
def add_section (img : Image) (addr : Nat) (data : List Nat) : Image :=
  if addr < img.flash_base then
    { img with loaded_sections := img.loaded_sections ++ [(addr, data)] }
  else
    { img with static_sections := img.static_sections ++ [(addr, data)] }

/-- Strict lexicographic comparison of byte sequences, as Python compares
bytes values. -/
def bytesLT : List Nat → List Nat → Bool
  | [], [] => false
  | [], _ :: _ => true
  | _ :: _, [] => false
  | a :: as, b :: bs => Nat.blt a b || (a == b && bytesLT as bs)

/-- Python tuple comparison on (address, data) pairs: by address, then by
data bytes. -/
def secLT (x y : Nat × List Nat) : Bool :=
  Nat.blt x.1 y.1 || (x.1 == y.1 && bytesLT x.2 y.2)

/-- One insertion step of the ascending sort of the section list. -/
def insertSec (x : Nat × List Nat) : List (Nat × List Nat) → List (Nat × List Nat)
  | [] => [x]
  | y :: ys => if secLT x y then x :: y :: ys else y :: insertSec x ys

/-- list.sort() on the section list: the ascending arrangement under the
total tuple order. Elements comparing equal under this order are identical
pairs, so every correct sort produces the same list as the source does. -/
def sortSecs : List (Nat × List Nat) → List (Nat × List Nat)
  | [] => []
  | x :: xs => insertSec x (sortSecs xs)

/-- The emission loop of Image.static_image: for each section, 0xFF filler
from the end of what has been emitted up to the section address, then the
section data. Python computes addr - base - len(b) as a possibly negative
int, and a negative bytes repeat count yields empty bytes; truncated Nat
subtraction models exactly that clamping. -/
def staticEmit (base : Nat) : List (Nat × List Nat) → List Nat → List Nat
  | [], b => b
  | (addr, data) :: rest, b =>
    staticEmit base rest (b ++ List.replicate (addr - base - b.length) 0xff ++ data)

/-- Image.static_image: sorts static_sections in place (a visible mutation
of the Image, returned as the second component), takes the lowest address
as the image base, emits filler and data per section, and returns
(base - flash_base, bytes). The first component is none when
static_sections is empty (IndexError on the [0] access); the in-place
sort has already happened by then. -/
def static_image (img : Image) : Option (Int × List Nat) × Image :=
  let sorted := sortSecs img.static_sections
  let img2 := { img with static_sections := sorted }
  match sorted with
  | [] => (none, img2)
  | (a0, d0) :: rest =>
    (some ((a0 : Int) - (img.flash_base : Int), staticEmit a0 ((a0, d0) :: rest) []), img2)

/-- Zero padding of a section body to the next multiple of 4, exactly as
the source computes it: 3 - (len - 1) mod 4 with Python signed mod, so an
empty body receives no padding. -/
def pad4 (data : List Nat) : List Nat :=
  data ++ List.replicate (Int.toNat (3 - ((data.length : Int) - 1) % 4)) 0

/-- Image.loader_image: an 8-byte header (magic, section count, two zero
bytes, entrypoint), then per loaded section an (address, padded length)
header and the zero-padded body, then zero padding until the length is 15
mod 16 and one checksum byte over the unpadded concatenated section
bodies. none models the exceptions: struct.pack range errors, and the
TypeError checksum raises when the concatenation is empty. The Image is
not touched. -/
def loader_image (img : Image) : Option (List Nat) := do
  let magic ← packB ESP_IMAGE_MAGIC
  let cnt ← packB img.loaded_sections.length
  let z1 ← packB 0
  let z2 ← packB 0
  let ep ← packU32 img.entrypoint
  let hdr := magic ++ cnt ++ z1 ++ z2 ++ ep
  let body ← img.loaded_sections.foldlM (fun acc sec => do
      let d := pad4 sec.2
      let a ← packU32 sec.1
      let l ← packU32 d.length
      pure (acc ++ a ++ l ++ d)) hdr
  let chk ← checksum (img.loaded_sections.foldr (fun sec acc => sec.2 ++ acc) [])
      ESP_CHECKSUM_MAGIC
  let chkB ← packB chk
  pure (body ++ List.replicate (15 - body.length % 16) 0 ++ chkB)

/-- Image.combined_image: loader_image, 0xFF filler out to the static
offset (a negative gap silently yields no filler), then the static image
bytes. Calling it runs static_image, so the in-place sort of
static_sections happens here too; failures of either part propagate. -/
def combined_image (img : Image) : Option (List Nat) × Image :=
  match loader_image img with
  | none => (none, img)
  | some limg =>
    match static_image img with
    | (none, img2) => (none, img2)
    | (some (sbase, simg), img2) =>
      (some (limg ++ List.replicate (Int.toNat (sbase - (limg.length : Int))) 0xff ++ simg),
        img2)

/-- The overlapping static layout of claim C6: 16 bytes at 0x1000 and 16
bytes at 0x1008, both at or above a flash base of 0. -/
def overlapImage : Image :=
  { loaded_sections := []
    static_sections := [(0x1000, List.replicate 16 0xaa), (0x1008, List.replicate 16 0xbb)]
    entrypoint := 0
    flash_base := 0 }

/-- Claim C6, evaluation at the failing input: static_image raises no
error of any kind on the overlapping sections (the source defines no
LayoutError at all); it returns the plain 32-byte concatenation, silently
placing the 0x1008 section at image offset 16 instead of 8. -/
theorem static_image_overlap_eval :
    (static_image overlapImage).1
      = some (0x1000, List.replicate 16 0xaa ++ List.replicate 16 0xbb) := by decide

theorem insertSec_perm (x : Nat × List Nat) (l : List (Nat × List Nat)) :
    (insertSec x l).Perm (x :: l) := by
  induction l with
  | nil => exact List.Perm.refl _
  | cons y ys ih =>
    by_cases h : secLT x y
    · simp only [insertSec, if_pos h]
      exact List.Perm.refl _
    · simp only [insertSec, if_neg h]
      exact (ih.cons y).trans (List.Perm.swap x y ys)

theorem sortSecs_perm (l : List (Nat × List Nat)) : (sortSecs l).Perm l := by
  induction l with
  | nil => exact List.Perm.refl _
  | cons x xs ih => exact (insertSec_perm x (sortSecs xs)).trans (ih.cons x)

theorem static_image_snd (img : Image) :
    (static_image img).2 = { img with static_sections := sortSecs img.static_sections } := by
  unfold static_image
  cases h : sortSecs img.static_sections with
  | nil => simp [h]
  | cons s rest => cases s with | mk a d => simp [h]

/-- An image whose static sections arrive out of address order. -/
def swappedImage : Image :=
  { loaded_sections := []
    static_sections := [(2, [0]), (1, [0])]
    entrypoint := 0
    flash_base := 0 }

/-- Claim C9, counterexample: static_image mutates the Image it is called
on: it sorts static_sections in place, so the section list of this image,
given out of address order, is changed by the call. -/
theorem static_image_mutates_cex :
    ((static_image swappedImage).2).static_sections ≠ swappedImage.static_sections := by
  decide

/-- Claim C9, amended: loader_image only reads the Image; static_image and
combined_image leave loaded_sections, entrypoint and flash_base unchanged,
but sort static_sections in place by ascending address (the multiset of
static sections is preserved, their stored order generally is not). -/
theorem image_ops_frame (img : Image) :
    ((static_image img).2).loaded_sections = img.loaded_sections ∧
    ((static_image img).2).entrypoint = img.entrypoint ∧
    ((static_image img).2).flash_base = img.flash_base ∧
    ((static_image img).2).static_sections = sortSecs img.static_sections ∧
    ((static_image img).2).static_sections.Perm img.static_sections ∧
    ((combined_image img).2).loaded_sections = img.loaded_sections ∧
    ((combined_image img).2).entrypoint = img.entrypoint ∧
    ((combined_image img).2).flash_base = img.flash_base ∧
    ((combined_image img).2).static_sections.Perm img.static_sections := by
  have hs := static_image_snd img
  have hperm : (sortSecs img.static_sections).Perm img.static_sections := sortSecs_perm _
  have hc : ((combined_image img).2).loaded_sections = img.loaded_sections ∧
      ((combined_image img).2).entrypoint = img.entrypoint ∧
      ((combined_image img).2).flash_base = img.flash_base ∧
      ((combined_image img).2).static_sections.Perm img.static_sections := by
    unfold combined_image
    cases hl : loader_image img with
    | none => exact ⟨rfl, rfl, rfl, List.Perm.refl _⟩
    | some limg =>
      cases hsi : static_image img with
      | mk o i2 =>
        have hi2 : i2 = { img with static_sections := sortSecs img.static_sections } := by
          rw [← hs, hsi]
        cases o with
        | none =>
          refine ⟨by simp [hi2], by simp [hi2], by simp [hi2], ?_⟩
          simpa [hi2] using hperm
        | some pr =>
          cases pr with
          | mk sbase simg =>
            refine ⟨by simp [hi2], by simp [hi2], by simp [hi2], ?_⟩
            simpa [hi2] using hperm
  refine ⟨by simp [hs], by simp [hs], by simp [hs], by simp [hs], ?_,
    hc.1, hc.2.1, hc.2.2.1, hc.2.2.2⟩
  rw [hs]
  exact hperm

theorem foldl_xor_le {xs : List Nat} : ∀ {a : Nat}, a ≤ 255 → (∀ b ∈ xs, b ≤ 255) →
    xs.foldl (fun a b => a ^^^ b) a ≤ 255 := by
  induction xs with
  | nil =>
    intro a ha _
    simpa using ha
  | cons x xs ih =>
    intro a ha hb
    have hx : x ≤ 255 := hb x (by simp)
    have hax : a ^^^ x ≤ 255 := by
      have := @Nat.xor_lt_two_pow a x 8 (by omega) (by omega)
      omega
    exact ih hax (fun b hbm => hb b (by simp [hbm]))

/-- Claim C10: checksum over non-empty byte data with a byte seed succeeds
and yields a value in [0, 255], so the bytes([checksum]) construction that
loader_image performs on it (packB) always succeeds. -/
theorem checksum_byte_range (data : List Nat) (seed : Nat)
    (hne : data ≠ []) (hb : ∀ b ∈ data, b ≤ 255) (hs : seed ≤ 255) :
    ∃ v, checksum data seed = some v ∧ v ≤ 255 ∧ packB v = some [v] := by
  cases data with
  | nil => exact absurd rfl hne
  | cons x xs =>
    have hfold : xs.foldl (fun a b => a ^^^ b) x ≤ 255 :=
      foldl_xor_le (hb x (by simp)) (fun b hbm => hb b (by simp [hbm]))
    have hv : seed ^^^ xs.foldl (fun a b => a ^^^ b) x ≤ 255 := by
      have := @Nat.xor_lt_two_pow seed (xs.foldl (fun a b => a ^^^ b) x) 8 (by omega) (by omega)
      omega
    refine ⟨seed ^^^ xs.foldl (fun a b => a ^^^ b) x, rfl, hv, ?_⟩
    simp [packB, hv]

/-- Witness for checksum_byte_range on a concrete two-byte blob with the
default seed. -/
theorem checksum_byte_range_witness :
    ∃ v, checksum [18, 52] 239 = some v ∧ v ≤ 255 ∧ packB v = some [v] :=
  checksum_byte_range [18, 52] 239 (by decide) (by decide) (by decide)

/-- Outcome of ESPROM.connect. -/
inductive ConnectOutcome where
  | connected
  | connectionError
  deriving DecidableEq

/-- Observable trace of one ESPROM.connect run: outcome, how many
handshake attempts (sync sequences) were started, how many 0.1s sleeps
were taken, and the timeout in milliseconds set on a successful return. -/
structure ConnectTrace where
  outcome : ConnectOutcome
  attempts : Nat
  sleeps : Nat
  finalTimeoutMs : Option Nat
  deriving DecidableEq

/-- The retry loop of ESPROM.connect over the remaining attempt budget.
The transport oracle f tells whether the i-th flush-and-sync handshake
attempt succeeds; every failure kind is caught alike by the bare except
and followed by one 0.1s sleep, while a success sets the timeout to 5s
(5000 ms) and returns at once. -/
def connectAux (f : Nat → Bool) : Nat → Nat → ConnectTrace
  | _, 0 => { outcome := .connectionError, attempts := 0, sleeps := 0, finalTimeoutMs := none }
  | i, r + 1 =>
    if f i then
      { outcome := .connected, attempts := 1, sleeps := 0, finalTimeoutMs := some 5000 }
    else
      let t := connectAux f (i + 1) r
      { outcome := t.outcome
        attempts := t.attempts + 1
        sleeps := t.sleeps + 1
        finalTimeoutMs := t.finalTimeoutMs }

/-- A full ESPROM.connect run: the timeout set before the loop, and the
trace of the loop. -/
structure ConnectRun where
  initialTimeoutMs : Nat
  trace : ConnectTrace

/-- ESPROM.connect: port timeout to 0.5s (500 ms), then up to 10 handshake
attempts. -/
def connect (f : Nat → Bool) : ConnectRun :=
  { initialTimeoutMs := 500, trace := connectAux f 0 10 }

theorem connectAux_all_fail (f : Nat → Bool) :
    ∀ r i, (∀ k, k < r → f (i + k) = false) →
    connectAux f i r
      = { outcome := .connectionError, attempts := r, sleeps := r, finalTimeoutMs := none } := by
  intro r
  induction r with
  | zero => intro i _; rfl
  | succ n ih =>
    intro i h
    have h0 : f i = false := by simpa using h 0 (Nat.succ_pos n)
    have hrest : ∀ k, k < n → f (i + 1 + k) = false := by
      intro k hk
      have hx := h (k + 1) (Nat.succ_lt_succ hk)
      have he : i + (k + 1) = i + 1 + k := by omega
      rw [he] at hx
      exact hx
    simp only [connectAux, h0, Bool.false_eq_true, if_false, ih (i + 1) hrest]

theorem connectAux_first_success (f : Nat → Bool) :
    ∀ k i r, k < r → f (i + k) = true → (∀ j, j < k → f (i + j) = false) →
    connectAux f i r
      = { outcome := .connected, attempts := k + 1, sleeps := k, finalTimeoutMs := some 5000 } := by
  intro k
  induction k with
  | zero =>
    intro i r hr hf _
    cases r with
    | zero => exact absurd hr (by omega)
    | succ n =>
      have h0 : f i = true := by simpa using hf
      simp [connectAux, h0]
  | succ m ih =>
    intro i r hr hf hmin
    cases r with
    | zero => exact absurd hr (by omega)
    | succ n =>
      have h0 : f i = false := by simpa using hmin 0 (Nat.succ_pos m)
      have hf2 : f (i + 1 + m) = true := by
        have he : i + (m + 1) = i + 1 + m := by omega
        rw [he] at hf
        exact hf
      have hmin2 : ∀ j, j < m → f (i + 1 + j) = false := by
        intro j hj
        have hx := hmin (j + 1) (Nat.succ_lt_succ hj)
        have he : i + (j + 1) = i + 1 + j := by omega
        rw [he] at hx
        exact hx
      have hm : m < n := by omega
      simp only [connectAux, h0, Bool.false_eq_true, if_false, ih (i + 1) n hm hf2 hmin2]

theorem connectAux_attempts_le (f : Nat → Bool) : ∀ r i, (connectAux f i r).attempts ≤ r := by
  intro r
  induction r with
  | zero => intro i; simp [connectAux]
  | succ n ih =>
    intro i
    by_cases h : f i
    · simp [connectAux, h]
    · simp only [connectAux, h, Bool.false_eq_true, if_false]
      exact Nat.succ_le_succ (ih (i + 1))

/-- Claim C7: connect sets the transport timeout to 0.5s (500 ms) and
makes at most 10 handshake attempts; any failure on an attempt is
swallowed and followed by one 0.1s pause; the first successful attempt
(the k-th here, all before it failing) makes the call return after exactly
k+1 handshake sequences with the timeout raised to 5s; if all 10 attempts
fail, connect fails with ConnectionError after the 10th attempt. -/
theorem connect_retry_spec (f : Nat → Bool) :
    (connect f).initialTimeoutMs = 500 ∧
    (connect f).trace.attempts ≤ 10 ∧
    (∀ k, k < 10 → f k = true → (∀ j, j < k → f j = false) →
      (connect f).trace
        = { outcome := .connected, attempts := k + 1, sleeps := k
            finalTimeoutMs := some 5000 }) ∧
    ((∀ k, k < 10 → f k = false) →
      (connect f).trace
        = { outcome := .connectionError, attempts := 10, sleeps := 10
            finalTimeoutMs := none }) := by
  refine ⟨rfl, connectAux_attempts_le f 10 0, ?_, ?_⟩
  · intro k hk hf hmin
    show connectAux f 0 10 = _
    exact connectAux_first_success f k 0 10 hk (by simpa using hf)
      (fun j hj => by simpa using hmin j hj)
  · intro h
    show connectAux f 0 10 = _
    exact connectAux_all_fail f 10 0 (fun k hk => by simpa using h k hk)

/-- Witness: a transport that succeeds on the third attempt sees exactly 3
handshake sequences and 2 sleeps, and the call returns with the timeout at
5s. -/
theorem connect_retry_spec_witness :
    (connect (fun i => decide (i = 2))).trace
      = { outcome := .connected, attempts := 3, sleeps := 2, finalTimeoutMs := some 5000 } :=
  (connect_retry_spec (fun i => decide (i = 2))).2.2.1 2 (by decide) (by decide) (by decide)

/-- The transport state of one ESPROM connection: the current timeout in
milliseconds, the raw bytes available to read from the device, and the
raw bytes written so far. -/
structure Conn where
  timeoutMs : Nat
  input : List Nat
  output : List Nat

/-- One raw serial read: fails when no byte arrives within the timeout. -/
def portRead1 (c : Conn) : Except PyErr (Nat × Conn) :=
  match c.input with
  | [] => .error .timeoutError
  | b :: rest => .ok (b, { c with input := rest })

/-- ESPROM.read over the connection: SLIP-unescaped read of a byte count.
The failure covers both the ValueError of a bad escape byte and a port
read coming up empty; which of the two occurred plays no role in any
claim below. -/
def connRead (len : Nat) (c : Conn) : Except PyErr (List Nat × Conn) :=
  match slipDecode len c.input with
  | none => .error .valueError
  | some (bs, rest) => .ok (bs, { c with input := rest })

/-- ESPROM.write over the connection: the SLIP-framed packet goes out. -/
def connWrite (packet : List Nat) (c : Conn) : Conn :=
  { c with output := c.output ++ slipEncode packet }

/-- Python truthiness of the optional opcode in ESPROM.command: the
opcode-echo check is skipped for None and for 0 (no caller passes 0). -/
def opTruthy : Option Nat → Bool
  | none => false
  | some o => o != 0

/-- ESPROM.command: when an opcode is present, build the request header
(0x00, opcode, u16 payload length, u32 checksum) plus payload and send it
SLIP-framed; then read one response: a raw 0xC0, an 8-byte SLIP header
(status, opcode echo, u16 body length, u32 value), the body, and a raw
closing 0xC0. A status other than 0x01, or an opcode echo mismatch when a
truthy opcode was supplied, raises ValueError. -/
def command (op : Option Nat) (data : List Nat) (chk : Nat) (c : Conn) :
    Except PyErr ((Nat × List Nat) × Conn) := do
  let c1 ← match op with
    | none => pure c
    | some o => do
      let ob ← match packB o with
        | some l => pure l
        | none => throw PyErr.structError
      let lb ← match packU16 data.length with
        | some l => pure l
        | none => throw PyErr.structError
      let kb ← match packU32 chk with
        | some l => pure l
        | none => throw PyErr.structError
      pure (connWrite ([0x00] ++ ob ++ lb ++ kb ++ data) c)
  let r1 ← portRead1 c1
  if r1.1 ≠ 0xc0 then throw PyErr.valueError
  let r2 ← connRead 8 r1.2
  let hdr := r2.1
  let resp := hdr.getD 0 0
  let opRet := hdr.getD 1 0
  let lenRet := hdr.getD 2 0 + 256 * hdr.getD 3 0
  let val := getU32le hdr 4
  if resp ≠ 0x01 then throw PyErr.valueError
  if opTruthy op = true ∧ some opRet ≠ op then throw PyErr.valueError
  let r3 ← connRead lenRet r2.2
  let r4 ← portRead1 r3.2
  if r4.1 ≠ 0xc0 then throw PyErr.valueError
  pure ((val, r3.1), r4.2)

/-- ESPROM.simple_command: a command whose response body must be exactly
two zero bytes. -/
def simple_command (op : Option Nat) (data : List Nat) (chk : Nat) (c : Conn) :
    Except PyErr (Nat × Conn) := do
  let rc ← command op data chk c
  if rc.1.2 ≠ [0, 0] then throw PyErr.valueError
  pure (rc.1.1, rc.2)

/-- The connection flash_begin runs its command on: the timeout raised to
10s (10000 ms) for the duration of the erase-and-begin exchange. -/
def flashBeginConn (c : Conn) : Conn :=
  { c with timeoutMs := 10000 }

/-- The finally clause of ESPROM.flash_begin: whatever the protected block
produced, a return value or an exception, the saved timeout value goes
back onto the connection that comes out. -/
def finallyRestore (old : Nat) (r : Except PyErr (Nat × Conn)) (cOnError : Conn) :
    Except PyErr Nat × Conn :=
  match r with
  | .ok (v, c2) => (.ok v, { c2 with timeoutMs := old })
  | .error e => (.error e, { cOnError with timeoutMs := old })

/-- ESPROM.flash_begin: remember the old timeout, raise it to 10s, issue
the flash-begin simple_command (the struct.pack of the payload happens
inside the protected region too), and restore the old timeout on the way
out whether the command returned or raised. On the error path the
consumed-input position is not observable to the caller and is not
tracked; the timeout, which the claim is about, is. -/
def flash_begin (size offset : Nat) (c : Conn) : Except PyErr Nat × Conn :=
  finallyRestore c.timeoutMs
    (do
      let payload ← match flashBeginPayload size offset with
        | some p => pure p
        | none => throw PyErr.structError
      simple_command (some ESP_FLASH_BEGIN) payload 0 (flashBeginConn c))
    (flashBeginConn c)

theorem finallyRestore_timeoutMs (old : Nat) (r : Except PyErr (Nat × Conn)) (ce : Conn) :
    ((finallyRestore old r ce).2).timeoutMs = old := by
  cases r with
  | ok p => rfl
  | error e => rfl

/-- Claim C8: flash_begin runs its command on a connection whose timeout
is raised to 10s, and on every exit path, the command succeeding or
failing in any way (missing or malformed response, bad status, wrong
body, packing error), the pre-call timeout value is restored. -/
theorem flash_begin_timeout_restored (size offset : Nat) (c : Conn) :
    (flashBeginConn c).timeoutMs = 10000 ∧
    ((flash_begin size offset c).2).timeoutMs = c.timeoutMs := by
  exact ⟨rfl, finallyRestore_timeoutMs c.timeoutMs _ _⟩

/-- The chunks generator of esptool.py: consecutive slices of at most n
bytes. A step of 0 raises ValueError in Python and no caller uses one; it
yields nothing here. -/
def chunksList (n : Nat) (l : List Nat) : List (List Nat) :=
  match n, l with
  | _, [] => []
  | 0, _ :: _ => []
  | m + 1, x :: xs => (x :: xs).take (m + 1) :: chunksList (m + 1) (xs.drop m)
termination_by l.length
decreasing_by simp [List.length_drop]; omega

/-- One issued bootloader command: opcode, payload bytes and the checksum
field of the request header. -/
structure CmdRec where
  op : Nat
  payload : List Nat
  chk : Nat
  deriving DecidableEq

/-- ESPROM.mem_begin as issued: opcode 0x05 with the four u32 fields and
no checksum. -/
def mem_begin_cmd (size blocks blocksize offset : Nat) : Except PyErr CmdRec :=
  match memBeginPayload size blocks blocksize offset with
  | some p => .ok { op := ESP_MEM_BEGIN, payload := p, chk := 0 }
  | none => .error .structError

/-- ESPROM.mem_block as issued: opcode 0x07, a header of length, sequence
number and two zero words, then the data, checksummed over the data. -/
def mem_block_cmd (data : List Nat) (seq : Nat) : Except PyErr CmdRec :=
  match pack4U32 data.length seq 0 0, checksum data ESP_CHECKSUM_MAGIC with
  | some p, some k => .ok { op := ESP_MEM_DATA, payload := p ++ data, chk := k }
  | none, _ => .error .structError
  | _, none => .error .typeError

/-- ESPROM.mem_finish as issued: opcode 0x06 with the run flag
int(entrypoint == 0) and the entrypoint. -/
def mem_finish_cmd (entrypoint : Nat) : Except PyErr CmdRec :=
  match memFinishPayload entrypoint with
  | some p => .ok { op := ESP_MEM_END, payload := p, chk := 0 }
  | none => .error .structError

/-- In write_memory_image the name size is read but never assigned, so
Python resolves it as a module global; no global named size exists
anywhere in esptool.py, and the lookup raises NameError. -/
def globalSize : Option Nat := none

/-- Ceiling division for the block count: math.ceil of the float quotient
by ESP_RAM_BLOCK, exact at every magnitude a u32 field can carry. -/
def ceilRamBlocks (size : Nat) : Nat :=
  (size + ESP_RAM_BLOCK - 1) / ESP_RAM_BLOCK

/-- The RAM block commands of one section, sequence numbers counting up
from the given start. -/
def wmiBlocks : Nat → List (List Nat) → Except PyErr (List CmdRec)
  | _, [] => .ok []
  | seq, ch :: rest => do
    let c ← mem_block_cmd ch seq
    let cs ← wmiBlocks (seq + 1) rest
    pure (c :: cs)

/-- The commands one section of write_memory_image issues: a
download-begin sized by the unbound name size, then the blocks with
sequence numbers restarting at 0. The read of size raises NameError
before any command is issued. -/
def wmiSection (addr : Nat) (data : List Nat) : Except PyErr (List CmdRec) :=
  match globalSize with
  | none => .error .nameError
  | some size => do
    let b ← mem_begin_cmd size (ceilRamBlocks size) ESP_RAM_BLOCK addr
    let bs ← wmiBlocks 0 (chunksList ESP_RAM_BLOCK data)
    pure (b :: bs)

/-- ESPROM.write_memory_image: the command trace the call would issue on a
transport accepting every command: per section a download-begin and its
blocks, then one download-finish carrying the entrypoint. -/
def write_memory_image (sections : List (Nat × List Nat)) (entrypoint : Nat) :
    Except PyErr (List CmdRec) := do
  let secCmds ← sections.foldlM (fun acc sec => do
      let cs ← wmiSection sec.1 sec.2
      pure (acc ++ cs)) ([] : List CmdRec)
  let fin ← mem_finish_cmd entrypoint
  pure (secCmds ++ [fin])

/-- Claim C1, evaluation at the failing input: on any non-empty section
list, here one single-byte section at 0x40100000 with entrypoint 0,
write_memory_image raises NameError at its first download-begin (the
source reads the unbound name size instead of the section length), so the
claimed command sequence is never issued. -/
theorem write_memory_image_name_error :
    write_memory_image [(0x40100000, [1])] 0 = Except.error PyErr.nameError := rfl

end EspTool
